import Mathlib

/-!
# Verification of the voxday.net archive scraper

Shallow embedding of `voxday_scraper.py` and `extract_content.py`
(the crawl orchestration core and the corpus exporter), together with
proofs about the embedded definitions.

Conventions of the embedding:
* Python strings are modelled as Lean `String` / `List Char`; the `\d` and
  `\w` regex classes are modelled over ASCII (`Char.isDigit`,
  `Char.isAlphanum`), which is faithful for the URL data the scraper
  handles.
* Filesystem paths are modelled as lists of path components relative to
  `OUTPUT_DIR`; directory creation side effects are disregarded.
* The network is modelled as an explicit oracle argument
  (`String → Option _`): `fetch_url` returns `None` on any request error,
  which the oracle's `none` represents.
-/

namespace VD

/-! ## `extract_date_from_url`

Python source:
```
match = re.search(r'/(\d{4})/(\d{2})/(\d{2})/', url)
if match:
    return f"{match.group(1)}-{match.group(2)}-{match.group(3)}"
return None
```
`re.search` returns the leftmost position at which the pattern matches.
The pattern has fixed width 12, so "matches at position i" is a predicate
on the suffix starting at i. -/

/-- Does `/(\d{4})/(\d{2})/(\d{2})/` match at the head of `l`? -/
def dateMatchAt : List Char → Bool
  | s0 :: y1 :: y2 :: y3 :: y4 :: s1 :: m1 :: m2 :: s2 :: d1 :: d2 :: s3 :: _ =>
      s0 == '/' && y1.isDigit && y2.isDigit && y3.isDigit && y4.isDigit &&
      s1 == '/' && m1.isDigit && m2.isDigit &&
      s2 == '/' && d1.isDigit && d2.isDigit && s3 == '/'
  | _ => false

/-- The string `f"{g1}-{g2}-{g3}"` built from a match at the head of `l`
(meaningful only when `dateMatchAt l = true`). -/
def dateGroupsAt : List Char → String
  | _ :: y1 :: y2 :: y3 :: y4 :: _ :: m1 :: m2 :: _ :: d1 :: d2 :: _ =>
      ⟨[y1, y2, y3, y4, '-', m1, m2, '-', d1, d2]⟩
  | _ => ""

/-- Model of `re.search` for the date pattern: try each suffix left to right. -/
def searchDate : List Char → Option String
  | [] => none
  | c :: rest =>
      if dateMatchAt (c :: rest) then some (dateGroupsAt (c :: rest))
      else searchDate rest

/-- The function `extract_date_from_url(url)`. -/
def extract_date_from_url (url : String) : Option String :=
  searchDate url.data

/-! ## `get_output_path`

Python source:
```
match = re.search(r'/(\d{4})/(\d{2})/\d{2}/([^/]+)/?', url)
if match:
    year, month, slug = match.groups()
    slug = re.sub(r'[^\w\-]', '_', slug)[:100]
    return OUTPUT_DIR / year / month / f"{slug}.json"
else:
    misc_dir = OUTPUT_DIR / "misc"
    slug = urlparse(url).path.strip('/').replace('/', '_')[:100]
    return misc_dir / f"{slug}.json"
```
The dated pattern requires at least one non-`/` character after the date
(`[^/]+`); the greedy `([^/]+)` capture is the maximal run of non-`/`
characters, and the trailing `/?` never forces backtracking. -/

/-- Does `/(\d{4})/(\d{2})/\d{2}/([^/]+)/?` match at the head of `l`? -/
def pathMatchAt : List Char → Bool
  | s0 :: y1 :: y2 :: y3 :: y4 :: s1 :: m1 :: m2 :: s2 :: d1 :: d2 :: s3 :: c :: _ =>
      s0 == '/' && y1.isDigit && y2.isDigit && y3.isDigit && y4.isDigit &&
      s1 == '/' && m1.isDigit && m2.isDigit &&
      s2 == '/' && d1.isDigit && d2.isDigit && s3 == '/' && c != '/'
  | _ => false

/-- The `(year, month, slug)` groups of a match at the head of `l`
(meaningful only when `pathMatchAt l = true`). -/
def pathGroupsAt : List Char → String × String × String
  | _ :: y1 :: y2 :: y3 :: y4 :: _ :: m1 :: m2 :: _ :: _ :: _ :: _ :: rest =>
      (⟨[y1, y2, y3, y4]⟩, ⟨[m1, m2]⟩, ⟨rest.takeWhile (· != '/')⟩)
  | _ => ("", "", "")

/-- Model of `re.search` for the dated-path pattern. -/
def searchPath : List Char → Option (String × String × String)
  | [] => none
  | c :: rest =>
      if pathMatchAt (c :: rest) then some (pathGroupsAt (c :: rest))
      else searchPath rest

/-- Python `\w` over ASCII: `[a-zA-Z0-9_]`. -/
def pyWordChar (c : Char) : Bool := c.isAlphanum || c == '_'

/-- Slug sanitization: `re.sub(r'[^\w\-]', '_', slug)[:100]`. -/
def sanitizeSlug (slug : String) : String :=
  ⟨(slug.data.map fun c => if pyWordChar c || c == '-' then c else '_').take 100⟩

/-- Is `"://"` present in `l`? (scheme/netloc separator). -/
def hasSchemeSep : List Char → Bool
  | ':' :: '/' :: '/' :: _ => true
  | _ :: rest => hasSchemeSep rest
  | [] => false

/-- Drop everything up to and including the first `"://"`. -/
def dropScheme : List Char → List Char
  | ':' :: '/' :: '/' :: rest => rest
  | _ :: rest => dropScheme rest
  | [] => []

/-- Model of `urlparse(url).path` for the URL shapes the scraper sees:
after `scheme://netloc`, the path runs to the first `?` or `#`. -/
def urlparse_path (url : String) : List Char :=
  let l := url.data
  let p := if hasSchemeSep l then (dropScheme l).dropWhile (· != '/') else l
  p.takeWhile (fun c => c != '?' && c != '#')

/-- Python `s.strip('/')`: drop leading and trailing slashes. -/
def stripSlashes (l : List Char) : List Char :=
  ((l.dropWhile (· == '/')).reverse.dropWhile (· == '/')).reverse

/-- The misc-bucket slug: `urlparse(url).path.strip('/').replace('/', '_')[:100]`. -/
def miscSlug (url : String) : String :=
  ⟨((stripSlashes (urlparse_path url)).map
      fun c => if c == '/' then '_' else c).take 100⟩

/-- The function `get_output_path(url)`, as path components relative to `OUTPUT_DIR`. -/
def get_output_path (url : String) : List String :=
  match searchPath url.data with
  | some (year, month, slug) => [year, month, sanitizeSlug slug ++ ".json"]
  | none => ["misc", miscSlug url ++ ".json"]

/-! ## HTML documents and BeautifulSoup queries

An HTML document is modelled as a tree of elements and text nodes; an
element carries its tag name, its `class` attribute values and its other
attributes.  `soup.find(...)` is the first element in document order
(pre-order, depth first) satisfying the query; `tag.find_all(...)` collects
the matching descendants of `tag` in document order. -/

inductive Node where
  | text (s : String)
  | elem (tag : String) (classes : List String)
      (attrs : List (String × String)) (children : List Node)

/-- The attribute lookup `tag.get(name)`. -/
def Node.attr (name : String) : Node → Option String
  | .text _ => none
  | .elem _ _ attrs _ => (attrs.find? (·.1 == name)).map (·.2)

/-- The children of a node (empty for text nodes). -/
def Node.children : Node → List Node
  | .text _ => []
  | .elem _ _ _ ch => ch

/-- A query over an element: tag name, class values, attributes. -/
abbrev NodeQuery := String → List String → List (String × String) → Bool

mutual

/-- BS4 `find` on one subtree: the node itself, then its children, pre-order. -/
def findNode (p : NodeQuery) : Node → Option Node
  | .text _ => none
  | .elem t cs attrs ch =>
      if p t cs attrs then some (.elem t cs attrs ch) else findNodes p ch

/-- BS4 `find` over a forest, left to right. -/
def findNodes (p : NodeQuery) : List Node → Option Node
  | [] => none
  | n :: rest => (findNode p n).or (findNodes p rest)

end

mutual

/-- BS4 `find_all` restricted to one subtree (the node itself included). -/
def findAllNode (p : NodeQuery) : Node → List Node
  | .text _ => []
  | .elem t cs attrs ch =>
      (if p t cs attrs then [Node.elem t cs attrs ch] else []) ++ findAllNodes p ch

/-- BS4 `find_all` over a forest. -/
def findAllNodes (p : NodeQuery) : List Node → List Node
  | [] => []
  | n :: rest => findAllNode p n ++ findAllNodes p rest

end

/-- The query `soup.find(tag, class_=cls)`. -/
def findTagClass (doc : List Node) (tag cls : String) : Option Node :=
  findNodes (fun t cs _ => t == tag && cs.contains cls) doc

/-- The query `soup.find(tag)`. -/
def findTag (doc : List Node) (tag : String) : Option Node :=
  findNodes (fun t _ _ => t == tag) doc

/-- The query `soup.find(class_=cls)`. -/
def findClass (doc : List Node) (cls : String) : Option Node :=
  findNodes (fun _ cs _ => cs.contains cls) doc

/-- The query `soup.find("a", rel="author")`: `rel` is a space-separated
multi-valued attribute, matched when it contains `"author"`. -/
def findARelAuthor (doc : List Node) : Option Node :=
  findNodes
    (fun t _ attrs =>
      t == "a" &&
        ((((attrs.find? (·.1 == "rel")).map (·.2)).getD "").splitOn " ").contains
          "author")
    doc

mutual

/-- The text fragments (descendant text nodes) of a node, document order. -/
def textFragments : Node → List String
  | .text s => [s]
  | .elem _ _ _ ch => textFragmentsList ch

/-- Text fragments of a forest. -/
def textFragmentsList : List Node → List String
  | [] => []
  | n :: rest => textFragments n ++ textFragmentsList rest

end

/-- Python `str.strip()`: drop leading and trailing whitespace. -/
def pyStrip (s : String) : String :=
  ⟨((s.data.dropWhile Char.isWhitespace).reverse.dropWhile Char.isWhitespace).reverse⟩

/-- The extraction `tag.get_text(separator=sep, strip=True)`: each fragment is stripped,
whitespace-only fragments are dropped, and the rest are joined by `sep`. -/
def get_text_strip (sep : String) (n : Node) : String :=
  String.intercalate sep (((textFragments n).map pyStrip).filter (· != ""))

mutual

/-- Removing (`decompose`) every descendant `script`/`style` element. -/
def stripScriptStyle : Node → Node
  | .text s => .text s
  | .elem t cs attrs ch => .elem t cs attrs (stripScriptStyleList ch)

/-- Recursive `decompose` over a forest. -/
def stripScriptStyleList : List Node → List Node
  | [] => []
  | .elem t cs attrs ch :: rest =>
      if t == "script" || t == "style" then stripScriptStyleList rest
      else .elem t cs attrs (stripScriptStyleList ch) :: stripScriptStyleList rest
  | .text s :: rest => .text s :: stripScriptStyleList rest

end

/-- The first run of digits in `l` (`re.findall(r'\d+', ...)` first hit). -/
def firstDigitRun : List Char → Option (List Char)
  | [] => none
  | c :: rest =>
      if c.isDigit then some (c :: rest.takeWhile (·.isDigit))
      else firstDigitRun rest

/-- Decimal value of a digit string (`int(...)`). -/
def digitsVal (l : List Char) : Nat :=
  l.foldl (fun a c => 10 * a + (c.toNat - '0'.toNat)) 0

/-! ## `scrape_post` -/

/-- The record written for one post (`post_data` in `scrape_post`).
`scraped_at` (wall clock) is not modelled; `content_html` is modelled as
the matched element itself (`content_elem`), captured — as in the source —
before `script`/`style` stripping, rather than as its serialization. -/
structure PostData where
  url : String
  title : Option String
  date_display : Option String
  date_iso : Option String
  date_from_url : Option String
  author : String
  content_elem : Option Node
  content_text : Option String
  tags : List String
  categories : List String
  comments_count : Option Nat
  sitemap_lastmod : Option String := none

/-- The extraction part of `scrape_post` (everything after the fetch). -/
def extract_post (url : String) (doc : List Node) : PostData :=
  let title_tag := (findTagClass doc "h1" "entry-title").or (findTag doc "h1")
  let date_tag :=
    ((findTagClass doc "time" "entry-date").or (findTag doc "time")).or
      (findClass doc "posted-on")
  let author_tag := (findClass doc "author").or (findARelAuthor doc)
  let content_tag :=
    ((findTagClass doc "div" "entry-content").or (findTag doc "article")).or
      (findClass doc "post-content")
  let tag_container := (findClass doc "tags-links").or (findClass doc "post-tags")
  let cat_container := (findClass doc "cat-links").or (findClass doc "post-categories")
  let comments_tag := findClass doc "comments-link"
  { url := url
    title := title_tag.map (get_text_strip "")
    date_display := date_tag.map (get_text_strip "")
    date_iso :=
      match date_tag with
      | some t =>
          match t.attr "datetime" with
          | some v => if v != "" then some v else none
          | none => none
      | none => none
    date_from_url := extract_date_from_url url
    author :=
      match author_tag with
      | some t => get_text_strip "" t
      | none => "VD"
    content_elem := content_tag
    content_text :=
      content_tag.map fun t => get_text_strip "\n" (stripScriptStyle t)
    tags :=
      match tag_container with
      | some t =>
          (findAllNodes (fun tg _ _ => tg == "a") (Node.children t)).map
            (get_text_strip "")
      | none => []
    categories :=
      match cat_container with
      | some t =>
          (findAllNodes (fun tg _ _ => tg == "a") (Node.children t)).map
            (get_text_strip "")
      | none => []
    comments_count :=
      match comments_tag with
      | some t =>
          some (match firstDigitRun (get_text_strip "" t).data with
                | some ds => digitsVal ds
                | none => 0)
      | none => none }

/-- The function `scrape_post(url)`: the network fetch is the oracle `fetchHtml`;
`fetch_url` returning `None` (any request error) is `none`. -/
def scrape_post (fetchHtml : String → Option (List Node)) (url : String) :
    Option PostData :=
  (fetchHtml url).map (extract_post url)

/-! ## `scrape_all_posts`

The loop threads explicit state; besides the mutable pieces of the source
(`scraped`, `failed` as sets, the periodic `save_progress` calls) the state
records the observable effects the proofs speak about: the URLs for which
a fetch was issued (`attempts`, in order) and the record files written
(`written`, as path/contents pairs).  `time.sleep` and console output are
not modelled. -/

/-- One sitemap entry (`post_data` in `fetch_post_urls_from_sitemap`). -/
structure PostInfo where
  url : String
  lastmod : Option String
  date : Option String
deriving Repr, DecidableEq

/-- The checkpoint contents (`progress.json`); `last_run` is not modelled. -/
structure Progress where
  scraped_urls : List String
  failed_urls : List String
deriving Repr, DecidableEq

/-- Python `set.add`: sets are modelled as duplicate-free-by-construction
lists, preserving insertion order (irrelevant to membership). -/
def addToSet (l : List String) (u : String) : List String :=
  if l.contains u then l else l ++ [u]

/-- The observable state of one `scrape_all_posts` run. -/
structure RunState where
  scraped : List String
  failed : List String
  loopSaves : Nat
  saves : Nat
  attempts : List String
  written : List (List String × PostData)

/-- The body of the `for i, post_info in enumerate(to_scrape, 1)` loop for
one item. -/
def processPost (fetchHtml : String → Option (List Node)) (p : PostInfo)
    (i : Nat) (st : RunState) : RunState :=
  let st1 := { st with attempts := st.attempts ++ [p.url] }
  let st2 :=
    match scrape_post fetchHtml p.url with
    | some pd =>
        let pd := { pd with sitemap_lastmod := p.lastmod }
        { st1 with
          written := st1.written ++ [(get_output_path p.url, pd)]
          scraped := addToSet st1.scraped p.url }
    | none => { st1 with failed := addToSet st1.failed p.url }
  if i % 10 == 0 then
    { st2 with loopSaves := st2.loopSaves + 1, saves := st2.saves + 1 }
  else st2

/-- The scraping loop, `i` counting from 1. -/
def scrapeLoop (fetchHtml : String → Option (List Node)) :
    List PostInfo → Nat → RunState → RunState
  | [], _, st => st
  | p :: rest, i, st => scrapeLoop fetchHtml rest (i + 1) (processPost fetchHtml p i st)

/-- The filter `to_scrape = [p for p in post_urls if p["url"] not in scraped]`. -/
def to_scrape (post_urls : List PostInfo) (scraped : List String) : List PostInfo :=
  post_urls.filter (fun p => !scraped.contains p.url)

/-- The function `scrape_all_posts(post_urls, progress)`; the trailing `saves + 1` is the
unconditional final `save_progress` after the loop. -/
def scrape_all_posts (fetchHtml : String → Option (List Node))
    (post_urls : List PostInfo) (progress : Progress) : RunState :=
  let st := scrapeLoop fetchHtml (to_scrape post_urls progress.scraped_urls) 1
    ⟨progress.scraped_urls, progress.failed_urls, 0, 0, [], []⟩
  { st with saves := st.saves + 1 }

/-- The number of checkpoint saves the loop performs for items numbered
`i, i+1, …, i+n-1` (one save per index divisible by 10). -/
def countSaves : Nat → Nat → Nat
  | _, 0 => 0
  | i, n + 1 => (if i % 10 = 0 then 1 else 0) + countSaves (i + 1) n

/-! ## `build_index`

`sorted(post_urls, key=lambda x: x.get("date") or "", reverse=True)` is a
stable sort, descending by the key (CPython's `sorted` is documented to be
stable also with `reverse=True`).  A stable sort's output is determined
uniquely by that contract, so it is embedded as `List.insertionSort` with
the relation "key of the left argument is at least the key of the right"
— which is stable and produces a descending-by-key ordering.  String
comparison is CPython's: lexicographic by code point. -/

/-- Python `str` `<`: lexicographic by code point. -/
def charListLt : List Char → List Char → Bool
  | [], [] => false
  | [], _ :: _ => true
  | _ :: _, [] => false
  | a :: as, b :: bs =>
      if a.toNat < b.toNat then true
      else if b.toNat < a.toNat then false
      else charListLt as bs

/-- Python `str` `<=` (`a <= b` iff not `b < a`). -/
def pyStrLe (a b : String) : Bool := !(charListLt b.data a.data)

/-- The sort key `x.get("date") or ""`. -/
def indexKey (p : PostInfo) : String := p.date.getD ""

/-- The comparison of the descending stable sort: `a` may precede `b`. -/
def indexRel (a b : PostInfo) : Prop := pyStrLe (indexKey b) (indexKey a) = true

instance : DecidableRel indexRel := fun a b => by
  unfold indexRel; infer_instance

/-- The `posts` field of the index:
`sorted(post_urls, key=lambda x: x.get("date") or "", reverse=True)`. -/
def build_index_posts (post_urls : List PostInfo) : List PostInfo :=
  post_urls.insertionSort indexRel

/-! ## The corpus exporter (`extract_content.py`)

```
date = data.get("date_iso")
if not date:
    date = data.get("date_from_url")
if not date:
    date = data.get("date_display", "Unknown Date")
```
`data.get(k)` is `none` when the key is absent (or its JSON value null);
`if not date` is Python truthiness, under which the empty string and
`None` both fail. -/

/-- Python truthiness of `data.get(k)`. -/
def pyTruthy : Option String → Bool
  | none => false
  | some s => s != ""

/-- The `Date:` value the exporter emits for a record with the given
`date_iso`, `date_from_url` and `date_display` fields. -/
def corpus_date (date_iso date_from_url date_display : Option String) : String :=
  let d1 := date_iso
  let d2 := if pyTruthy d1 then d1 else date_from_url
  if pyTruthy d2 then d2.getD "" else date_display.getD "Unknown Date"

/-- Does a record path (components relative to the archive directory)
match the exporter's glob `*/*/*.json`?  A `*` never crosses `/` and never
matches a leading dot. -/
def corpus_glob_matches : List String → Bool
  | [a, b, c] =>
      !a.startsWith "." && !b.startsWith "." && !c.startsWith "." &&
        c.endsWith ".json"
  | _ => false

example : extract_date_from_url "https://example.org/2024/03/07/hello-world/" =
    some "2024-03-07" := by decide
example : extract_date_from_url "https://example.org/about/" = none := by decide
example : extract_date_from_url "https://x.net/9999/13/99/p/" = some "9999-13-99" := by
  decide
example : get_output_path "https://example.org/2024/03/07/hello-world/" =
    ["2024", "03", "hello-world.json"] := by decide
example : get_output_path "https://example.org/2024/03/07/" =
    ["misc", "2024_03_07.json"] := by decide
example : get_output_path "https://example.org/about/" = ["misc", "about.json"] := by
  decide
example : get_output_path "https://example.org/2024/03/07/a.b c/" =
    ["2024", "03", "a_b_c.json"] := by decide

/-! ## Order properties of the sort comparison -/

theorem char_toNat_inj {a b : Char} (h : a.toNat = b.toNat) : a = b := by
  rw [← Char.ofNat_toNat a, ← Char.ofNat_toNat b, h]

theorem charListLt_nil_right : ∀ as : List Char, charListLt as [] = false
  | [] => rfl
  | _ :: _ => rfl

theorem charListLt_asymm :
    ∀ as bs, charListLt as bs = true → charListLt bs as = false
  | [], [], h => by simp [charListLt] at h
  | [], _ :: _, _ => by simp [charListLt]
  | _ :: _, [], h => by simp [charListLt] at h
  | a :: as, b :: bs, h => by
    simp only [charListLt] at h ⊢
    rcases Nat.lt_trichotomy a.toNat b.toNat with hab | hab | hab
    · rw [if_neg (by omega), if_pos hab]
    · rw [if_neg (by omega), if_neg (by omega)] at h
      rw [if_neg (by omega), if_neg (by omega)]
      exact charListLt_asymm as bs h
    · rw [if_neg (by omega), if_pos hab] at h
      exact (Bool.false_ne_true h).elim

theorem charListLt_trans :
    ∀ as bs cs, charListLt as bs = true → charListLt bs cs = true →
      charListLt as cs = true
  | _, [], _, h1, _ => by rw [charListLt_nil_right] at h1; cases h1
  | _, _ :: _, [], _, h2 => by rw [charListLt_nil_right] at h2; cases h2
  | [], _ :: _, _ :: _, _, _ => by simp [charListLt]
  | a :: as, b :: bs, c :: cs, h1, h2 => by
    simp only [charListLt] at h1 h2 ⊢
    rcases Nat.lt_trichotomy a.toNat b.toNat with hab | hab | hab
    · rcases Nat.lt_trichotomy b.toNat c.toNat with hbc | hbc | hbc
      · rw [if_pos (by omega)]
      · rw [if_pos (by omega)]
      · rw [if_neg (by omega), if_pos hbc] at h2
        exact (Bool.false_ne_true h2).elim
    · rcases Nat.lt_trichotomy b.toNat c.toNat with hbc | hbc | hbc
      · rw [if_pos (by omega)]
      · rw [if_neg (by omega), if_neg (by omega)] at h1 h2
        rw [if_neg (by omega), if_neg (by omega)]
        exact charListLt_trans as bs cs h1 h2
      · rw [if_neg (by omega), if_pos hbc] at h2
        exact (Bool.false_ne_true h2).elim
    · rw [if_neg (by omega), if_pos hab] at h1
      exact (Bool.false_ne_true h1).elim

theorem charListLt_antisymm :
    ∀ as bs, charListLt as bs = false → charListLt bs as = false → as = bs
  | [], [], _, _ => rfl
  | [], _ :: _, h, _ => by simp [charListLt] at h
  | _ :: _, [], _, h => by simp [charListLt] at h
  | a :: as, b :: bs, h1, h2 => by
    simp only [charListLt] at h1 h2
    rcases Nat.lt_trichotomy a.toNat b.toNat with hab | hab | hab
    · rw [if_pos hab] at h1
      exact (Bool.false_ne_true h1.symm).elim
    · rw [if_neg (by omega), if_neg (by omega)] at h1
      rw [if_neg (by omega), if_neg (by omega)] at h2
      have h : a = b := char_toNat_inj hab
      rw [h, charListLt_antisymm as bs h1 h2]
    · rw [if_pos hab] at h2
      exact (Bool.false_ne_true h2.symm).elim

theorem indexRel_total (a b : PostInfo) : indexRel a b ∨ indexRel b a := by
  unfold indexRel pyStrLe
  rcases hab : charListLt (indexKey a).data (indexKey b).data with _ | _
  · left; simp [hab]
  · right; simp [charListLt_asymm _ _ hab]

theorem indexRel_trans (a b c : PostInfo) :
    indexRel a b → indexRel b c → indexRel a c := by
  intro hab hbc
  unfold indexRel pyStrLe at hab hbc ⊢
  simp only [Bool.not_eq_true', Bool.not_eq_false] at hab hbc ⊢
  rcases hac : charListLt (indexKey a).data (indexKey c).data with _ | _
  · rfl
  · exfalso
    rcases hcb : charListLt (indexKey c).data (indexKey b).data with _ | _
    · have := charListLt_antisymm _ _ hbc hcb
      rw [this] at hab
      rw [hac] at hab
      simp at hab
    · have := charListLt_trans _ _ _ hac hcb
      rw [this] at hab
      simp at hab

/-! ## Behaviour of the scraping loop -/

theorem contains_iff_mem {l : List String} {u : String} :
    l.contains u = true ↔ u ∈ l := List.elem_iff

theorem mem_addToSet {l : List String} {u v : String} :
    u ∈ addToSet l v ↔ u ∈ l ∨ u = v := by
  unfold addToSet
  split
  · rename_i h
    rw [show l.contains v = l.elem v from rfl, List.elem_iff] at h
    constructor
    · exact Or.inl
    · rintro (hu | rfl)
      · exact hu
      · exact h
  · simp

theorem attempts_processPost (f : String → Option (List Node)) (p : PostInfo)
    (i : Nat) (st : RunState) :
    (processPost f p i st).attempts = st.attempts ++ [p.url] := by
  unfold processPost
  cases scrape_post f p.url <;> dsimp <;> split <;> rfl

theorem loopSaves_processPost (f : String → Option (List Node)) (p : PostInfo)
    (i : Nat) (st : RunState) :
    (processPost f p i st).loopSaves =
      st.loopSaves + (if i % 10 = 0 then 1 else 0) := by
  unfold processPost
  cases scrape_post f p.url <;> dsimp <;>
    rcases h : (i % 10 == 0 : Bool) with _ | _ <;>
      simp_all

theorem saves_processPost (f : String → Option (List Node)) (p : PostInfo)
    (i : Nat) (st : RunState) :
    (processPost f p i st).saves = st.saves + (if i % 10 = 0 then 1 else 0) := by
  unfold processPost
  cases scrape_post f p.url <;> dsimp <;>
    rcases h : (i % 10 == 0 : Bool) with _ | _ <;>
      simp_all

theorem failed_processPost_none {f : String → Option (List Node)} {p : PostInfo}
    (i : Nat) (st : RunState) (h : f p.url = none) :
    (processPost f p i st).failed = addToSet st.failed p.url := by
  unfold processPost scrape_post
  rw [h]
  dsimp
  split <;> rfl

theorem failed_processPost_mono {f : String → Option (List Node)} {p : PostInfo}
    (i : Nat) (st : RunState) {u : String} (h : u ∈ st.failed) :
    u ∈ (processPost f p i st).failed := by
  unfold processPost
  cases scrape_post f p.url <;> dsimp <;> split <;>
    first
      | exact h
      | exact mem_addToSet.mpr (Or.inl h)

theorem scraped_processPost {f : String → Option (List Node)} {p : PostInfo}
    (i : Nat) (st : RunState) {u : String}
    (hm : u ∈ (processPost f p i st).scraped) :
    u ∈ st.scraped ∨ (u = p.url ∧ f p.url ≠ none) := by
  unfold processPost scrape_post at hm
  cases hf : f p.url <;> rw [hf] at hm <;> dsimp at hm
  · split at hm
    · exact Or.inl hm
    · exact Or.inl hm
  · split at hm <;>
      exact (mem_addToSet.mp hm).imp id (fun h => ⟨h, by simp [hf]⟩)

theorem written_processPost {f : String → Option (List Node)} {p : PostInfo}
    (i : Nat) (st : RunState) {pr : List String × PostData}
    (hm : pr ∈ (processPost f p i st).written) :
    pr ∈ st.written ∨ (pr.2.url = p.url ∧ f p.url ≠ none) := by
  unfold processPost scrape_post at hm
  cases hf : f p.url <;> rw [hf] at hm <;> dsimp at hm
  · split at hm
    · exact Or.inl hm
    · exact Or.inl hm
  · split at hm <;>
      · rw [List.mem_append] at hm
        refine hm.imp id (fun h => ?_)
        rw [List.mem_singleton] at h
        subst h
        exact ⟨rfl, by simp [hf]⟩

theorem scrapeLoop_attempts (f : String → Option (List Node)) :
    ∀ (l : List PostInfo) (i : Nat) (st : RunState),
      (scrapeLoop f l i st).attempts = st.attempts ++ l.map (·.url)
  | [], i, st => by simp [scrapeLoop]
  | p :: rest, i, st => by
    rw [scrapeLoop, scrapeLoop_attempts f rest, attempts_processPost]
    simp

theorem scrapeLoop_loopSaves (f : String → Option (List Node)) :
    ∀ (l : List PostInfo) (i : Nat) (st : RunState),
      (scrapeLoop f l i st).loopSaves = st.loopSaves + countSaves i l.length
  | [], i, st => by simp [scrapeLoop, countSaves]
  | p :: rest, i, st => by
    rw [scrapeLoop, scrapeLoop_loopSaves f rest, loopSaves_processPost]
    show _ = st.loopSaves + countSaves i (rest.length + 1)
    rw [countSaves]
    split <;> omega

theorem scrapeLoop_saves (f : String → Option (List Node)) :
    ∀ (l : List PostInfo) (i : Nat) (st : RunState),
      (scrapeLoop f l i st).saves = st.saves + countSaves i l.length
  | [], i, st => by simp [scrapeLoop, countSaves]
  | p :: rest, i, st => by
    rw [scrapeLoop, scrapeLoop_saves f rest, saves_processPost]
    show _ = st.saves + countSaves i (rest.length + 1)
    rw [countSaves]
    split <;> omega

theorem countSaves_eq (n i : Nat) : countSaves (i + 1) n = (i + n) / 10 - i / 10 := by
  induction n generalizing i with
  | zero => simp [countSaves]
  | succ n ih =>
    have h2 : countSaves (i + 1) (n + 1) =
        (if (i + 1) % 10 = 0 then 1 else 0) + countSaves (i + 1 + 1) n := rfl
    rw [h2, ih (i + 1)]
    split <;> omega

theorem countSaves_one (n : Nat) : countSaves 1 n = n / 10 := by
  have := countSaves_eq n 0
  simpa using this

theorem failed_scrapeLoop_mono (f : String → Option (List Node)) :
    ∀ (l : List PostInfo) (i : Nat) (st : RunState) {u : String},
      u ∈ st.failed → u ∈ (scrapeLoop f l i st).failed
  | [], _, _, _, h => h
  | _ :: rest, i, st, _, h =>
    failed_scrapeLoop_mono f rest (i + 1) _ (failed_processPost_mono i st h)

theorem mem_failed_scrapeLoop (f : String → Option (List Node)) :
    ∀ (l : List PostInfo) (i : Nat) (st : RunState) (p : PostInfo),
      p ∈ l → f p.url = none → p.url ∈ (scrapeLoop f l i st).failed
  | [], _, _, _, hp, _ => absurd hp (List.not_mem_nil _)
  | q :: rest, i, st, p, hp, hf => by
    rcases List.mem_cons.mp hp with rfl | hp2
    · rw [scrapeLoop]
      refine failed_scrapeLoop_mono f rest (i + 1) _ ?_
      rw [failed_processPost_none i st hf]
      exact mem_addToSet.mpr (Or.inr rfl)
    · exact mem_failed_scrapeLoop f rest (i + 1) _ p hp2 hf

theorem not_mem_scraped_scrapeLoop (f : String → Option (List Node)) :
    ∀ (l : List PostInfo) (i : Nat) (st : RunState) {u : String},
      f u = none → u ∉ st.scraped → u ∉ (scrapeLoop f l i st).scraped
  | [], _, _, _, _, hu => hu
  | p :: rest, i, st, u, hf, hu => by
    rw [scrapeLoop]
    refine not_mem_scraped_scrapeLoop f rest (i + 1) _ hf ?_
    intro hmem
    rcases scraped_processPost i st hmem with h | ⟨rfl, hne⟩
    · exact hu h
    · exact hne hf

theorem written_scrapeLoop (f : String → Option (List Node)) :
    ∀ (l : List PostInfo) (i : Nat) (st : RunState) {u : String},
      f u = none → (∀ pr ∈ st.written, pr.2.url ≠ u) →
      ∀ pr ∈ (scrapeLoop f l i st).written, pr.2.url ≠ u
  | [], _, _, _, _, hw => hw
  | p :: rest, i, st, u, hf, hw => by
    rw [scrapeLoop]
    refine written_scrapeLoop f rest (i + 1) _ hf ?_
    intro pr hpr
    rcases written_processPost i st hpr with h | ⟨hurl, hne⟩
    · exact hw pr h
    · intro hequ
      rw [hequ] at hurl
      rw [hurl] at hf
      exact hne hf

/-! ## The claims -/

/-- C1: idempotent resume.  Given a checkpoint whose scraped set contains
some URLs, `scrape_all_posts` attempts exactly the discovered references
whose url is not in the scraped set (set difference by url string
equality), in the order provided by discovery; no URL already in the
scraped set is ever fetched. -/
theorem C1_idempotent_resume (f : String → Option (List Node))
    (post_urls : List PostInfo) (progress : Progress) :
    (scrape_all_posts f post_urls progress).attempts
        = (post_urls.filter fun p => !progress.scraped_urls.contains p.url).map (·.url)
    ∧ ∀ u ∈ progress.scraped_urls,
        u ∉ (scrape_all_posts f post_urls progress).attempts := by
  have hatt : (scrape_all_posts f post_urls progress).attempts
      = (to_scrape post_urls progress.scraped_urls).map (·.url) := by
    show (scrapeLoop f (to_scrape post_urls progress.scraped_urls) 1
        ⟨progress.scraped_urls, progress.failed_urls, 0, 0, [], []⟩).attempts = _
    rw [scrapeLoop_attempts]
    rfl
  refine ⟨hatt, ?_⟩
  intro u hu hmem
  rw [hatt] at hmem
  simp only [to_scrape, List.mem_map, List.mem_filter] at hmem
  obtain ⟨p, ⟨_, hcon⟩, hup⟩ := hmem
  rw [hup, Bool.not_eq_true'] at hcon
  rw [contains_iff_mem.mpr hu] at hcon
  exact Bool.noConfusion hcon

/-- C1 witness: with `"u1"` already in the checkpoint, a run over
`["u1", "u2"]` never fetches `"u1"`. -/
theorem C1_idempotent_resume_witness :
    "u1" ∈ ["u1"]
    ∧ "u1" ∉ (scrape_all_posts (fun _ => none)
        [⟨"u1", none, none⟩, ⟨"u2", none, none⟩] ⟨["u1"], []⟩).attempts :=
  ⟨by decide,
    (C1_idempotent_resume (fun _ => none)
      [⟨"u1", none, none⟩, ⟨"u2", none, none⟩] ⟨["u1"], []⟩).2 "u1" (by decide)⟩

/-- C2, as stated, is false: processing 5 to-scrape items saves the
checkpoint 0 times during the loop, not `ceil(5/10) = 1` times. -/
theorem C2_checkpoint_cadence_counterexample :
    (to_scrape
        [⟨"u1", none, none⟩, ⟨"u2", none, none⟩, ⟨"u3", none, none⟩,
          ⟨"u4", none, none⟩, ⟨"u5", none, none⟩] []).length = 5
    ∧ ¬ ((scrape_all_posts (fun _ => none)
          [⟨"u1", none, none⟩, ⟨"u2", none, none⟩, ⟨"u3", none, none⟩,
            ⟨"u4", none, none⟩, ⟨"u5", none, none⟩] ⟨[], []⟩).loopSaves
        = (5 + 10 - 1) / 10) := by
  constructor
  · decide
  · decide

/-- C2 (amended): for every run in which `scrape_all_posts` processes `N`
to-scrape items (each counted whether it succeeds or fails), the
checkpoint is saved exactly `floor(N/10)` times during the loop, and is
always saved once more unconditionally after the loop, for `floor(N/10)+1`
saves in total. -/
theorem C2_checkpoint_cadence (f : String → Option (List Node))
    (post_urls : List PostInfo) (progress : Progress) :
    (scrape_all_posts f post_urls progress).loopSaves
        = (to_scrape post_urls progress.scraped_urls).length / 10
    ∧ (scrape_all_posts f post_urls progress).saves
        = (to_scrape post_urls progress.scraped_urls).length / 10 + 1 := by
  constructor
  · show (scrapeLoop f (to_scrape post_urls progress.scraped_urls) 1
        ⟨progress.scraped_urls, progress.failed_urls, 0, 0, [], []⟩).loopSaves = _
    rw [scrapeLoop_loopSaves, countSaves_one]
    exact Nat.zero_add _
  · show (scrapeLoop f (to_scrape post_urls progress.scraped_urls) 1
        ⟨progress.scraped_urls, progress.failed_urls, 0, 0, [], []⟩).saves + 1 = _
    rw [scrapeLoop_saves, countSaves_one]
    show 0 + _ + 1 = _ + 1
    rw [Nat.zero_add]

/-- C5: partial-failure isolation.  A fetch failure at position `K` of the
to-scrape list records that URL in the failed set, writes no record for
it, keeps it out of the scraped set (so it stays eligible for a later
run), and every position of the to-scrape list — in particular every
position after `K` — is still attempted in the same run. -/
theorem C5_partial_failure_isolation (f : String → Option (List Node))
    (post_urls : List PostInfo) (progress : Progress) (K : Nat)
    (hK : K < (to_scrape post_urls progress.scraped_urls).length)
    (hfail : f (((to_scrape post_urls progress.scraped_urls).get ⟨K, hK⟩).url) = none) :
    ((to_scrape post_urls progress.scraped_urls).get ⟨K, hK⟩).url
        ∈ (scrape_all_posts f post_urls progress).failed
    ∧ (∀ pr ∈ (scrape_all_posts f post_urls progress).written,
        pr.2.url ≠ ((to_scrape post_urls progress.scraped_urls).get ⟨K, hK⟩).url)
    ∧ ((to_scrape post_urls progress.scraped_urls).get ⟨K, hK⟩).url
        ∉ (scrape_all_posts f post_urls progress).scraped
    ∧ ∀ (j : Nat) (hj : j < (to_scrape post_urls progress.scraped_urls).length),
        ((to_scrape post_urls progress.scraped_urls).get ⟨j, hj⟩).url
          ∈ (scrape_all_posts f post_urls progress).attempts := by
  have hmem : (to_scrape post_urls progress.scraped_urls).get ⟨K, hK⟩
      ∈ to_scrape post_urls progress.scraped_urls := List.get_mem _ _ _
  refine ⟨?_, ?_, ?_, ?_⟩
  · show _ ∈ (scrapeLoop f (to_scrape post_urls progress.scraped_urls) 1
      ⟨progress.scraped_urls, progress.failed_urls, 0, 0, [], []⟩).failed
    exact mem_failed_scrapeLoop f _ 1 _ _ hmem hfail
  · show ∀ pr ∈ (scrapeLoop f (to_scrape post_urls progress.scraped_urls) 1
      ⟨progress.scraped_urls, progress.failed_urls, 0, 0, [], []⟩).written, _
    exact written_scrapeLoop f _ 1 _ hfail (fun pr hpr => absurd hpr (List.not_mem_nil _))
  · show _ ∉ (scrapeLoop f (to_scrape post_urls progress.scraped_urls) 1
      ⟨progress.scraped_urls, progress.failed_urls, 0, 0, [], []⟩).scraped
    refine not_mem_scraped_scrapeLoop f _ 1 _ hfail ?_
    have hfilt := List.mem_filter.mp hmem
    have hcon := hfilt.2
    rw [Bool.not_eq_true'] at hcon
    intro hin
    rw [contains_iff_mem.mpr hin] at hcon
    exact Bool.noConfusion hcon
  · intro j hj
    show _ ∈ (scrapeLoop f (to_scrape post_urls progress.scraped_urls) 1
      ⟨progress.scraped_urls, progress.failed_urls, 0, 0, [], []⟩).attempts
    rw [scrapeLoop_attempts]
    exact List.mem_append_right _ (List.mem_map_of_mem _ (List.get_mem _ _ _))

/-- C5 witness: with a single post whose fetch fails, the URL lands in the
failed set of the run. -/
theorem C5_partial_failure_isolation_witness :
    "u1" ∈ (scrape_all_posts (fun _ => none) [⟨"u1", none, none⟩] ⟨[], []⟩).failed :=
  (C5_partial_failure_isolation (fun _ => none) [⟨"u1", none, none⟩] ⟨[], []⟩ 0
    (by decide) rfl).1

/-- C3, as stated, is false: the slug `hello-world` contains only
characters inside `[alnum, underscore, hyphen]`, so sanitization keeps the
hyphen and the file is `hello-world.json`, not `hello_world.json`. -/
theorem C3_path_mapping_counterexample :
    get_output_path "https://example.org/2024/03/07/hello-world/"
      ≠ ["2024", "03", "hello_world.json"] := by decide

/-- C3 (amended): for the URL `https://example.org/2024/03/07/hello-world/`,
`get_output_path` resolves to `2024/03/hello-world.json` — the hyphen is
kept, since sanitization replaces every character outside alphanumerics,
underscore and hyphen with underscore (shown on `a.b c`) and truncates to
100 characters; for every URL whose path does not match the dated pattern,
the resolved path lies under `misc/`. -/
theorem C3_path_mapping (url : String) :
    get_output_path "https://example.org/2024/03/07/hello-world/"
        = ["2024", "03", "hello-world.json"]
    ∧ (searchPath url.data = none → (get_output_path url).head? = some "misc")
    ∧ get_output_path "https://example.org/2024/03/07/a.b c/"
        = ["2024", "03", "a_b_c.json"]
    ∧ (sanitizeSlug ⟨List.replicate 150 'a'⟩).length = 100 := by
  refine ⟨by decide, ?_, by decide, by decide⟩
  intro h
  unfold get_output_path
  rw [h]
  rfl

/-- C3 witness: a URL with no dated path resolves under `misc/`. -/
theorem C3_path_mapping_witness :
    searchPath "https://example.org/about/".data = none
    ∧ (get_output_path "https://example.org/about/").head? = some "misc" :=
  ⟨by decide, (C3_path_mapping "https://example.org/about/").2.1 (by decide)⟩

theorem searchDate_eq_none_iff :
    ∀ l : List Char, searchDate l = none ↔ ∀ i, dateMatchAt (l.drop i) = false
  | [] => by
    constructor
    · intro _ i
      rw [List.drop_nil]
      rfl
    · intro _
      rfl
  | c :: rest => by
    rw [searchDate]
    by_cases h : dateMatchAt (c :: rest) = true
    · rw [if_pos h]
      constructor
      · intro hc
        exact Option.noConfusion hc
      · intro hall
        have h0 := hall 0
        rw [List.drop_zero] at h0
        rw [h0] at h
        exact Bool.noConfusion h
    · have hf : dateMatchAt (c :: rest) = false := Bool.not_eq_true _ ▸ Bool.of_not_eq_true h
      rw [if_neg h, searchDate_eq_none_iff rest]
      constructor
      · intro hall i
        cases i with
        | zero => rw [List.drop_zero]; exact hf
        | succ i => rw [List.drop_succ_cons]; exact hall i
      · intro hall i
        have hs := hall (i + 1)
        rw [List.drop_succ_cons] at hs
        exact hs

theorem searchDate_first :
    ∀ (l : List Char) (i : Nat), dateMatchAt (l.drop i) = true →
      (∀ j, j < i → dateMatchAt (l.drop j) = false) →
      searchDate l = some (dateGroupsAt (l.drop i))
  | [], i, h, _ => by
    rw [List.drop_nil] at h
    exact Bool.noConfusion h
  | c :: rest, 0, h, _ => by
    rw [List.drop_zero] at h ⊢
    rw [searchDate, if_pos h]
  | c :: rest, i + 1, h, hmin => by
    rw [List.drop_succ_cons] at h ⊢
    have h0 := hmin 0 (Nat.succ_pos i)
    rw [List.drop_zero] at h0
    rw [searchDate, if_neg (by rw [h0]; exact Bool.noConfusion)]
    refine searchDate_first rest i h (fun j hj => ?_)
    have hs := hmin (j + 1) (Nat.succ_lt_succ hj)
    rw [List.drop_succ_cons] at hs
    exact hs

/-- C9: `extract_date_from_url` searches the whole URL string with no
calendar validation: it returns `none` exactly when no suffix of the URL
matches `/dddd/dd/dd/`, and otherwise returns `YYYY-MM-DD` composed from
the leftmost (first) match — whatever the digits are. -/
theorem C9_extract_date_from_url (url : String) :
    (extract_date_from_url url = none ↔ ∀ i, dateMatchAt (url.data.drop i) = false)
    ∧ ∀ i, dateMatchAt (url.data.drop i) = true →
        (∀ j, j < i → dateMatchAt (url.data.drop j) = false) →
        extract_date_from_url url = some (dateGroupsAt (url.data.drop i)) :=
  ⟨searchDate_eq_none_iff url.data, fun i h hmin => searchDate_first url.data i h hmin⟩

/-- C9 witness: month 13 and day 99 are accepted verbatim (no calendar
validation); the match is the leftmost one. -/
theorem C9_extract_date_from_url_witness :
    extract_date_from_url "https://x.net/9999/13/99/p/" = some "9999-13-99" := by
  rw [(C9_extract_date_from_url "https://x.net/9999/13/99/p/").2 13 (by decide)
    (by decide)]
  decide

/-- C10: the dated-path regex of `get_output_path` requires a non-empty
slug after the date while `extract_date_from_url` does not: for a URL
whose path ends at the date (`…/2024/03/07/`), every record scraped from
it carries `date_from_url = 2024-03-07`, yet its file resolves into the
`misc/` bucket, and no `misc/` record — nor any record whose URL fails the
dated-path pattern — is matched by the corpus exporter's `*/*/*.json`
glob. -/
theorem C10_dated_url_without_slug :
    (∀ doc : List Node,
        (extract_post "https://example.org/2024/03/07/" doc).date_from_url
          = some "2024-03-07")
    ∧ get_output_path "https://example.org/2024/03/07/"
        = ["misc", "2024_03_07.json"]
    ∧ corpus_glob_matches (get_output_path "https://example.org/2024/03/07/") = false
    ∧ (∀ url : String, searchPath url.data = none →
        corpus_glob_matches (get_output_path url) = false) := by
  refine ⟨fun doc => ?_, by decide, by decide, fun url h => ?_⟩
  · show extract_date_from_url "https://example.org/2024/03/07/" = some "2024-03-07"
    decide
  · unfold get_output_path
    rw [h]
    rfl

/-- C10 witness: instantiating the universally quantified part on the
URL whose path ends at the date. -/
theorem C10_dated_url_without_slug_witness :
    searchPath "https://example.org/2024/03/07/".data = none
    ∧ corpus_glob_matches (get_output_path "https://example.org/2024/03/07/") = false :=
  ⟨by decide,
    C10_dated_url_without_slug.2.2.2 "https://example.org/2024/03/07/" (by decide)⟩

/-- C4: `build_index` sorts the discovered references by their date field
descending (missing date compared as the empty string): the result is a
permutation of the input, pairwise ordered by `indexRel` (the key of the
earlier element is ≥ the key of the later one), stable (a pair already in
acceptable order — in particular a pair with equal dates — keeps its
relative order), and on dates `2023-01-01`, `2023-06-01` and a missing
date the index lists `2023-06-01` first, `2023-01-01` second and the
undated entry last. -/
theorem C4_index_ordering :
    (∀ posts : List PostInfo, (build_index_posts posts).Perm posts)
    ∧ (∀ posts : List PostInfo, (build_index_posts posts).Pairwise indexRel)
    ∧ (∀ (posts : List PostInfo) (a b : PostInfo), indexRel a b →
        List.Sublist [a, b] posts → List.Sublist [a, b] (build_index_posts posts))
    ∧ build_index_posts
        [⟨"u1", none, some "2023-01-01"⟩, ⟨"u2", none, some "2023-06-01"⟩,
          ⟨"u3", none, none⟩]
      = [⟨"u2", none, some "2023-06-01"⟩, ⟨"u1", none, some "2023-01-01"⟩,
          ⟨"u3", none, none⟩] := by
  refine ⟨fun posts => List.perm_insertionSort indexRel posts, fun posts => ?_,
    fun posts a b hab hsub => List.pair_sublist_insertionSort hab hsub, by decide⟩
  haveI : IsTotal PostInfo indexRel := ⟨indexRel_total⟩
  haveI : IsTrans PostInfo indexRel := ⟨fun a b c => indexRel_trans a b c⟩
  exact List.sorted_insertionSort indexRel posts

/-- C4 witness: two references sharing the date `2023-06-01` keep their
original relative order in the built index. -/
theorem C4_index_ordering_witness :
    indexRel (⟨"a", none, some "2023-06-01"⟩ : PostInfo) ⟨"b", none, some "2023-06-01"⟩
    ∧ List.Sublist
        [(⟨"a", none, some "2023-06-01"⟩ : PostInfo), ⟨"b", none, some "2023-06-01"⟩]
        (build_index_posts
          [⟨"a", none, some "2023-06-01"⟩, ⟨"c", none, some "2024-01-01"⟩,
            ⟨"b", none, some "2023-06-01"⟩]) :=
  ⟨by decide, C4_index_ordering.2.2.1 _ _ _ (by decide) (by decide)⟩

/-- C6: title fallback chain.  For every fetched document, the record's
title is the text of the `h1` marked `entry-title` when present, else the
text of the first generic `h1`, else unset (`none`), never an error. -/
theorem C6_title_fallback (url : String) (doc : List Node) :
    (∀ t, findTagClass doc "h1" "entry-title" = some t →
        (extract_post url doc).title = some (get_text_strip "" t))
    ∧ (findTagClass doc "h1" "entry-title" = none →
        ∀ t, findTag doc "h1" = some t →
          (extract_post url doc).title = some (get_text_strip "" t))
    ∧ (findTagClass doc "h1" "entry-title" = none → findTag doc "h1" = none →
        (extract_post url doc).title = none) := by
  refine ⟨fun t h => ?_, fun h1 t h2 => ?_, fun h1 h2 => ?_⟩
  · show ((findTagClass doc "h1" "entry-title").or (findTag doc "h1")).map
        (get_text_strip "") = _
    rw [h]
    rfl
  · show ((findTagClass doc "h1" "entry-title").or (findTag doc "h1")).map
        (get_text_strip "") = _
    rw [h1, h2]
    rfl
  · show ((findTagClass doc "h1" "entry-title").or (findTag doc "h1")).map
        (get_text_strip "") = _
    rw [h1, h2]
    rfl

/-- C6 witness: a document with no `entry-title` heading but a generic
`h1` yields that heading's text. -/
theorem C6_title_fallback_witness :
    findTagClass [Node.elem "h1" [] [] [Node.text "Hello"]] "h1" "entry-title" = none
    ∧ (extract_post "u" [Node.elem "h1" [] [] [Node.text "Hello"]]).title
        = some "Hello" := by
  refine ⟨rfl, ?_⟩
  rw [(C6_title_fallback "u" [Node.elem "h1" [] [] [Node.text "Hello"]]).2.1 rfl
    (Node.elem "h1" [] [] [Node.text "Hello"]) rfl]
  decide

/-- C7, as stated, is false: the exporter tests Python truthiness, not
presence, so a record whose `date_iso` is present but empty does not emit
`date_iso` (it falls through to `date_from_url`). -/
theorem C7_corpus_date_counterexample :
    corpus_date (some "") (some "2024-01-01") none ≠ "" := by decide

/-- C7 (amended): the exporter emits `date_iso` when it is a non-empty
string; when `date_iso` is absent or empty it emits `date_from_url` when
that is a non-empty string; when both are absent or empty it emits
`date_display` whenever that key is present; and when additionally
`date_display` is absent it emits the literal `Unknown Date`. -/
theorem C7_corpus_date (iso furl disp : Option String) :
    (∀ s, iso = some s → s ≠ "" → corpus_date iso furl disp = s)
    ∧ (pyTruthy iso = false →
        ∀ s, furl = some s → s ≠ "" → corpus_date iso furl disp = s)
    ∧ (pyTruthy iso = false → pyTruthy furl = false →
        ∀ s, disp = some s → corpus_date iso furl disp = s)
    ∧ (pyTruthy iso = false → pyTruthy furl = false → disp = none →
        corpus_date iso furl disp = "Unknown Date") := by
  refine ⟨?_, ?_, ?_, ?_⟩
  · rintro s rfl hs
    simp only [corpus_date]
    simp [pyTruthy, hs]
  · rintro hiso s rfl hs
    simp only [corpus_date]
    rw [hiso]
    simp [pyTruthy, hs]
  · rintro hiso hfurl s rfl
    simp only [corpus_date]
    rw [hiso]
    simp [hfurl]
  · rintro hiso hfurl rfl
    simp only [corpus_date]
    rw [hiso]
    simp [hfurl]

/-- C7 witness: a record with only `date_from_url` yields that value; with
both `date_iso` and `date_from_url`, `date_iso` wins. -/
theorem C7_corpus_date_witness :
    corpus_date (some "2024-05-05T00:00:00") (some "2024-05-05") none
        = "2024-05-05T00:00:00"
    ∧ corpus_date none (some "2020-01-01") none = "2020-01-01" :=
  ⟨(C7_corpus_date (some "2024-05-05T00:00:00") (some "2024-05-05") none).1
      "2024-05-05T00:00:00" rfl (by decide),
    (C7_corpus_date none (some "2020-01-01") none).2.1 rfl
      "2020-01-01" rfl (by decide)⟩

/-- C8: in every record produced by the extractor, `date_iso` is only
assigned inside the branch that found a date element and already assigned
`date_display`, so `date_iso` never appears without `date_display`. -/
theorem C8_date_iso_implies_display (url : String) (doc : List Node)
    (h : (extract_post url doc).date_iso.isSome = true) :
    (extract_post url doc).date_display.isSome = true := by
  simp only [extract_post] at h ⊢
  rcases hd : ((findTagClass doc "time" "entry-date").or (findTag doc "time")).or
      (findClass doc "posted-on") with _ | t
  · rw [hd] at h
    simp at h
  · rfl

/-- C8 witness: a document with a `time` element carrying a `datetime`
attribute has both `date_iso` and `date_display` set. -/
theorem C8_date_iso_implies_display_witness :
    (extract_post "u"
        [Node.elem "time" [] [("datetime", "2024-01-01T00:00:00")]
          [Node.text "Jan 1"]]).date_display.isSome = true :=
  C8_date_iso_implies_display "u"
    [Node.elem "time" [] [("datetime", "2024-01-01T00:00:00")] [Node.text "Jan 1"]]
    (by decide)

end VD
